import Mathlib

/-
Verification of the JSX XSS static-analysis core (src/util.ts).

The embedding models, faithfully to the TypeScript source:
  * the type-safety oracle `isSafeAttribute` (src/util.ts lines 236-314),
  * the element classifier `diagnoseJsxElement` (lines 56-143),
  * the expression analyzer `diagnoseExpression` (lines 145-234),
  * the tree walker `recursiveDiagnoseJsxElements` (lines 21-37),
  * the diagnostic constructor `diagnostic` (lines 39-54) and
    `getSafeAttribute` (lines 316-324).

Mutable pushes into the `diagnostics` array become explicit state passing:
every function takes the diagnostic list so far and returns the extended
list.  External collaborators (the TypeScript AST and checker) are modelled
as data: nodes carry their literal source text, source span and the
checker-resolved type.
-/

/-! ### String helpers (JS string/regex operations used by the source) -/

/-- Models JS `text.startsWith(pre)` over the underlying character lists. -/
def strStartsWith (s pre : String) : Bool :=
  pre.toList.isPrefixOf s.toList

/-- A character of the regex class `\w` (ASCII letters, digits, underscore). -/
def isWordChar (c : Char) : Bool :=
  c.isAlphanum || c == '_'

/-- Case-insensitive match of one pattern character (`p`, given lowercase)
against a subject character, as the regex `/i` flag does for ASCII. -/
def ciCharEq (p c : Char) : Bool :=
  c == p || c.toNat + 32 == p.toNat

/-- Case-insensitive "the subject starts with the (lowercase) pattern". -/
def ciStartsWith : List Char → List Char → Bool
  | [], _ => true
  | _ :: _, [] => false
  | p :: ps, c :: cs => ciCharEq p c && ciStartsWith ps cs

/-- Models `ESCAPE_HTML_REGEX = /^(\w+\.)?escapeHtml/i` (src/util.ts line 14):
an optional qualifier of one or more `\w` characters followed by a dot, then
`escapeHtml` case-insensitively, anchored at the start of the text.  Since a
dot is not a `\w` character, the optional group can only consume the maximal
leading `\w` run, so regex backtracking reduces to the two cases below. -/
def escapeHtmlMatch (text : String) : Bool :=
  let cs := text.toList
  ciStartsWith "escapehtml".toList cs ||
    (match cs.dropWhile isWordChar with
     | '.' :: rest =>
        !(cs.takeWhile isWordChar).isEmpty && ciStartsWith "escapehtml".toList rest
     | _ => false)

/-- Models `UPPERCASE = /[A-Z]/` (src/util.ts line 13) tested with
`text.match(UPPERCASE)`: true iff ANY character of the text is an ASCII
uppercase letter (the regex is not anchored). -/
def containsUppercase (s : String) : Bool :=
  s.toList.any (fun c => 'A' ≤ c && c ≤ 'Z')

/-- Spec-side definition (not in the source): the tag name starts with an
uppercase letter, which is how the specification describes a component tag. -/
def startsWithUpper (s : String) : Bool :=
  match s.toList with
  | c :: _ => 'A' ≤ c && c ≤ 'Z'
  | [] => false

/-! ### The external type model (ts.Type as read by the source) -/

/-- Numeric values of the `ts.TypeFlags` bits the source reads, taken from
the TypeScript compiler enum: `Any = 1`, `String = 4`, `StringLiteral = 128`,
`Object = 1 <<< 19`.  In TypeScript a string-literal type carries
`StringLiteral` and NOT `String`; these are distinct bits. -/
def tfAny : Nat := 1

/-- ts.TypeFlags.String = 4. -/
def tfString : Nat := 4

/-- ts.TypeFlags.Number = 8 (not read by the source; used for example data). -/
def tfNumber : Nat := 8

/-- ts.TypeFlags.StringLiteral = 128. -/
def tfStringLiteral : Nat := 128

/-- ts.TypeFlags.Union = 1048576 (2 to the 20th). -/
def tfUnion : Nat := 1048576

/-- ts.TypeFlags.Object = 524288 (2 to the 19th). -/
def tfObject : Nat := 524288

/-- The alias symbol of a type: its escaped name and the escaped name of its
parent symbol, when present (the source reads `type.aliasSymbol.escapedName`
and `type.aliasSymbol.parent?.escapedName`). -/
structure AliasSym where
  escapedName : String
  parentName : Option String
deriving DecidableEq, Repr

/-- A checker-resolved type as observed by `isSafeAttribute`: the flag word,
the optional alias symbol, the union members when the type is a union
(`type.isUnion()` / `type.types`), the `checker.isArrayType` answer, the
escaped name of `type.symbol` when present, and `resolvedTypeArguments`. -/
inductive Ty where
  | mk (flags : Nat) (aliasSymbol : Option AliasSym) (unionTypes : Option (List Ty))
       (isArrayType : Bool) (symbolName : Option String)
       (resolvedTypeArguments : Option (List Ty))

/-- Flag word of the type. -/
def Ty.flags : Ty → Nat
  | .mk f _ _ _ _ _ => f

/-- Alias symbol of the type, when present. -/
def Ty.aliasSymbol : Ty → Option AliasSym
  | .mk _ al _ _ _ _ => al

/-- Union members, present exactly when `type.isUnion()` holds. -/
def Ty.unionTypes : Ty → Option (List Ty)
  | .mk _ _ un _ _ _ => un

/-- The `checker.isArrayType(type)` answer. -/
def Ty.isArrayType : Ty → Bool
  | .mk _ _ _ arr _ _ => arr

/-- Escaped name of `type.symbol`, when present. -/
def Ty.symbolName : Ty → Option String
  | .mk _ _ _ _ sym _ => sym

/-- The `resolvedTypeArguments` list, when present. -/
def Ty.resolvedTypeArguments : Ty → Option (List Ty)
  | .mk _ _ _ _ _ args => args

/-- The check `type.aliasSymbol.escapedName === 'Element' &&
type.aliasSymbol.parent?.escapedName === 'JSX'` (src/util.ts lines 254-257). -/
def isJsxElementAlias : Option AliasSym → Bool
  | some a => a.escapedName == "Element" && a.parentName == some "JSX"
  | none => false

/-- The check `type.aliasSymbol.escapedName === 'Children' &&
type.aliasSymbol.parent?.escapedName === 'Html'` (src/util.ts lines 265-268). -/
def isHtmlChildrenAlias : Option AliasSym → Bool
  | some a => a.escapedName == "Children" && a.parentName == some "Html"
  | none => false

/-! ### The AST model (the node shapes read by the source) -/

/-- Binary operator token kinds (`node.operatorToken.kind`).  The first ten
constructors are exactly the kinds listed in the switch of
`diagnoseExpression` (src/util.ts lines 166-175); the rest are the other
binary operators an expression can use. -/
inductive BinOp where
  | eqEqEq | eqEq | bangEqEq | bangEq
  | gtTok | gtEq | ltEq | ltTok
  | instanceOfKw | inKw
  | andAnd | orOr | quesQues | plusTok | minusTok | starTok | slashTok
  | percentTok | commaTok | assignTok
deriving DecidableEq, Repr

/-- The operator kinds of the switch at src/util.ts lines 166-175: the
boolean-producing comparisons plus `instanceof` and `in`. -/
def isBooleanOp : BinOp → Bool
  | .eqEqEq | .eqEq | .bangEqEq | .bangEq => true
  | .gtTok | .gtEq | .ltEq | .ltTok => true
  | .instanceOfKw | .inKw => true
  | _ => false

/-- The observable data of a node: its literal source text (`getText`), the
source file identity (`getSourceFile`), `getStart`, `getWidth`, `pos` (start
of the node including leading trivia; `getStart = pos + trivia length` in the
TypeScript AST), and the checker type at its location
(`checker.getTypeAtLocation`, `none` when the type cannot be resolved). -/
structure NodeInfo where
  text : String
  file : Nat
  start : Nat
  width : Nat
  pos : Nat
  ty : Option Ty

/-- An attribute of an opening tag, with the accessors the source reads:
`getText`, `getSourceFile`, `getStart`, `getWidth` and `pos`. -/
structure Attr where
  text : String
  file : Nat
  start : Nat
  width : Nat
  pos : Nat
deriving DecidableEq, Repr

/-- The node shapes distinguished by the source.  `jsxElement` carries the
opening tag name and attributes (the source reads
`node.openingElement.tagName.getText()` and
`node.openingElement.attributes.properties`) and the JSX children.
`jsxExpression` is an expression container whose inner expression may be
absent.  `callExpr` answers `ts.isCallExpression`; `otherExpr` stands for
every remaining expression form.  The child list of each constructor models
the child nodes the source reaches through `ts.forEachChild`/`getChildren`. -/
inductive Node where
  | jsxElement (info : NodeInfo) (tagName : String) (attributes : List Attr)
      (children : List Node)
  | jsxFragment (info : NodeInfo) (children : List Node)
  | jsxText (info : NodeInfo)
  | jsxExpression (info : NodeInfo) (expression : Option Node)
  | paren (info : NodeInfo) (expression : Node)
  | binaryExpr (info : NodeInfo) (left : Node) (op : BinOp) (right : Node)
  | conditionalExpr (info : NodeInfo) (cond : Node) (whenTrue : Node) (whenFalse : Node)
  | ident (info : NodeInfo)
  | callExpr (info : NodeInfo) (children : List Node)
  | otherExpr (info : NodeInfo) (children : List Node)

/-- The observable data of the node. -/
def Node.info : Node → NodeInfo
  | .jsxElement i _ _ _ => i
  | .jsxFragment i _ => i
  | .jsxText i => i
  | .jsxExpression i _ => i
  | .paren i _ => i
  | .binaryExpr i _ _ _ => i
  | .conditionalExpr i _ _ _ => i
  | .ident i => i
  | .callExpr i _ => i
  | .otherExpr i _ => i

/-- Models `node.getText()`. -/
def Node.getText (n : Node) : String := n.info.text

/-- Models `node.getSourceFile()` (as a file identity). -/
def Node.getSourceFile (n : Node) : Nat := n.info.file

/-- Models `node.getStart()`. -/
def Node.getStart (n : Node) : Nat := n.info.start

/-- Models `node.getWidth()`. -/
def Node.getWidth (n : Node) : Nat := n.info.width

/-- Models `checker.getTypeAtLocation(node)` (`none`: unresolved). -/
def Node.nodeTy (n : Node) : Option Ty := n.info.ty

/-- Models `ts.isJsxElement(node)`. -/
def isJsxElementNode : Node → Bool
  | .jsxElement _ _ _ _ => true
  | _ => false

/-- Models `ts.isJsxFragment(node)`. -/
def isFragmentNode : Node → Bool
  | .jsxFragment _ _ => true
  | _ => false

/-- Models `isJsx` (src/util.ts lines 17-19):
`ts.isJsxElement(node) || ts.isJsxFragment(node)`. -/
def isJsxNode : Node → Bool
  | .jsxElement _ _ _ _ => true
  | .jsxFragment _ _ => true
  | _ => false

/-- Models `exp.kind === ts.SyntaxKind.JsxText`. -/
def isJsxTextNode : Node → Bool
  | .jsxText _ => true
  | _ => false

/-- Models `ts.isJsxExpression(node)`. -/
def isJsxExpressionNode : Node → Bool
  | .jsxExpression _ _ => true
  | _ => false

/-- Models `ts.isParenthesizedExpression(node)`. -/
def isParenNode : Node → Bool
  | .paren _ _ => true
  | _ => false

/-- Models `ts.isBinaryExpression(node)`. -/
def isBinaryNode : Node → Bool
  | .binaryExpr _ _ _ _ => true
  | _ => false

/-- Models `ts.isConditionalExpression(node)`. -/
def isConditionalNode : Node → Bool
  | .conditionalExpr _ _ _ _ => true
  | _ => false

/-- Models `ts.isIdentifier(node)`. -/
def isIdentNode : Node → Bool
  | .ident _ => true
  | _ => false

/-- Models `ts.isCallExpression(node)`. -/
def isCallNode : Node → Bool
  | .callExpr _ _ => true
  | _ => false

/-- The child nodes a traversal reaches from a node: the JSX children of an
element or fragment, the inner expression of a container or parenthesis, the
operands of binary/conditional operators, and the stored child list of call
and other expressions.  This models both `ts.forEachChild(node, cb)` and the
node list scanned by `node.getChildren()` in `diagnoseExpression` (token
children are never JSX, so they are irrelevant to every use in the source). -/
def childNodes : Node → List Node
  | .jsxElement _ _ _ children => children
  | .jsxFragment _ children => children
  | .jsxText _ => []
  | .jsxExpression _ (some e) => [e]
  | .jsxExpression _ none => []
  | .paren _ e => [e]
  | .binaryExpr _ l _ r => [l, r]
  | .conditionalExpr _ c t f => [c, t, f]
  | .ident _ => []
  | .callExpr _ children => children
  | .otherExpr _ children => children

/-! ### Diagnostics -/

/-- The diagnostic kinds of the external `./errors` catalog that the source
emits.  Modelled from the spec: the catalog assigns each kind a distinct
stable numeric code and a message; we carry the kind itself. -/
inductive ErrKind where
  | Xss | ComponentXss | UnusedSafe | DoubleEscape
deriving DecidableEq, Repr

/-- ts.DiagnosticCategory. -/
inductive DiagCategory where
  | Warning | Error | Suggestion | Message
deriving DecidableEq, Repr

/-- A produced diagnostic (src/util.ts lines 46-53): category, error kind
(standing for the catalog code/message), `file = node.getSourceFile()`,
`length = node.getWidth()` and `start = node.getStart()`. -/
structure Diag where
  category : DiagCategory
  kind : ErrKind
  file : Nat
  length : Nat
  start : Nat
deriving DecidableEq, Repr

/-- Models `diagnostic(node, error, category)` (src/util.ts lines 39-54)
applied to an AST node. -/
def diagnosticOfNode (n : Node) (k : ErrKind) (c : DiagCategory) : Diag :=
  ⟨c, k, n.getSourceFile, n.getWidth, n.getStart⟩

/-- Models `diagnostic(node, error, category)` applied to an attribute node
(the source passes the safe attribute to the same generic function). -/
def diagnosticOfAttr (a : Attr) (k : ErrKind) (c : DiagCategory) : Diag :=
  ⟨c, k, a.file, a.width, a.start⟩

/-! ### The type-safety oracle (src/util.ts lines 236-314) -/

mutual
/-- Body of `isSafeAttribute` for a resolved (non-undefined) type, checked in
source order: the `Any` flag (line 248), the `JSX.Element`-alias-with-call
and `Html.Children`-alias rules (lines 252-272), the union rule (lines
274-279), the array/`Promise` rule recursing into the first resolved type
argument (lines 282-289, an absent argument falling back to the undefined
case, which is safe), the non-string-non-object rule (lines 293-300), and
finally the literal-text check (lines 302-313). -/
def isSafeTy : Ty → Node → Bool
  | .mk flags aliasSym unionTys arr symName args, e =>
    if flags &&& tfAny != 0 then false
    else if isJsxElementAlias aliasSym && isCallNode e then true
    else if isHtmlChildrenAlias aliasSym then true
    else
      match unionTys with
      | some members => isSafeTyList members e
      | none =>
        if arr || symName == some "Promise" then
          match args with
          | some (a :: _) => isSafeTy a e
          | _ => true
        else if flags &&& tfString == 0 && flags &&& tfObject == 0 then true
        else strStartsWith e.getText "safe" || escapeHtmlMatch e.getText

/-- The `types.every((t) => isSafeAttribute(ts, t, expression, checker))`
of the union rule. -/
def isSafeTyList : List Ty → Node → Bool
  | [], _ => true
  | t :: ts, e => isSafeTy t e && isSafeTyList ts e
end

/-- Models `isSafeAttribute(ts, type, expression, checker)`
(src/util.ts lines 236-314); `none` is the unresolved-type case of line 243,
which returns true. -/
def isSafeAttribute : Option Ty → Node → Bool
  | none, _ => true
  | some t, e => isSafeTy t e

/-! ### getSafeAttribute and the asserted-safe scan -/

/-- Models `getSafeAttribute(element)` (src/util.ts lines 316-324): the first
attribute whose literal text is exactly `safe`. -/
def getSafeAttribute : List Attr → Option Attr
  | [] => none
  | a :: rest => if a.text == "safe" then some a else getSafeAttribute rest

/-- The indexing `children.length === 1 && children[0]!.kind === JsxText`
(src/util.ts line 79) reads the head of the child list. -/
def headIsJsxText : List Node → Bool
  | c :: _ => isJsxTextNode c
  | [] => false

/-- The condition `ts.isJsxExpression(exp) && exp.expression?.getText()
.match(ESCAPE_HTML_REGEX)` (src/util.ts line 90). -/
def expMatchesEscape : Node → Bool
  | .jsxExpression _ (some e) => escapeHtmlMatch e.getText
  | _ => false

/-- One iteration of the asserted-safe child loop (src/util.ts lines 85-116):
a JSX-element child or an escapeHtml-matching container child pushes a
`DoubleEscape` error at the safe attribute; otherwise a container child whose
inner expression is safe, does not start with `unsafe`, and for which no
diagnostic so far has `start = safeAttribute.pos + 1` in the same file pushes
an `UnusedSafe` warning at the safe attribute.  The source consults the live
`diagnostics` array, so the suppression check runs against the accumulator. -/
def safeStep (safeAttribute : Attr) (file : Nat) (acc : List Diag) (exp : Node) : List Diag :=
  if isJsxElementNode exp || expMatchesEscape exp then
    acc ++ [diagnosticOfAttr safeAttribute .DoubleEscape .Error]
  else
    match exp with
    | .jsxExpression _ (some e) =>
      if isSafeAttribute e.nodeTy e && !(strStartsWith e.getText "unsafe")
          && !(acc.any (fun d => d.start == safeAttribute.pos + 1 && d.file == file)) then
        acc ++ [diagnosticOfAttr safeAttribute .UnusedSafe .Warning]
      else acc
    | _ => acc

/-- The asserted-safe child loop over all children (src/util.ts lines 85-116). -/
def safeLoop (children : List Node) (safeAttribute : Attr) (file : Nat)
    (diagnostics : List Diag) : List Diag :=
  children.foldl (safeStep safeAttribute file) diagnostics

/-! ### Size lemmas used to justify the recursion of the analyzer -/

/-- Any list has positive size. -/
theorem list_sizeOf_pos {α : Type} [SizeOf α] (l : List α) : 1 ≤ sizeOf l := by
  cases l <;> simp_arith

/-- A node's observable data has size at least four. -/
theorem nodeInfo_sizeOf_ge (i : NodeInfo) : 4 ≤ sizeOf i := by
  obtain ⟨t, f, s, w, p, y⟩ := i
  obtain ⟨d⟩ := t
  have h1 := list_sizeOf_pos d
  have h2 : 1 ≤ sizeOf y := by cases y <;> simp_arith
  simp
  omega

/-- The list of child nodes is smaller than the node itself. -/
theorem childNodes_sizeOf_lt (n : Node) : sizeOf (childNodes n) < sizeOf n := by
  cases n
  case jsxElement i tag attrs kids =>
    have := nodeInfo_sizeOf_ge i; simp [childNodes]; all_goals omega
  case jsxFragment i kids =>
    have := nodeInfo_sizeOf_ge i; simp [childNodes]; all_goals omega
  case jsxText i =>
    have := nodeInfo_sizeOf_ge i; simp [childNodes]; all_goals omega
  case jsxExpression i oe =>
    have := nodeInfo_sizeOf_ge i; cases oe <;> simp [childNodes] <;> omega
  case paren i e =>
    have := nodeInfo_sizeOf_ge i; simp [childNodes]; all_goals omega
  case binaryExpr i l op r =>
    have := nodeInfo_sizeOf_ge i; simp [childNodes]; all_goals omega
  case conditionalExpr i c t f =>
    have := nodeInfo_sizeOf_ge i; simp [childNodes]; all_goals omega
  case ident i =>
    have := nodeInfo_sizeOf_ge i; simp [childNodes]; all_goals omega
  case callExpr i kids =>
    have := nodeInfo_sizeOf_ge i; simp [childNodes]; all_goals omega
  case otherExpr i kids =>
    have := nodeInfo_sizeOf_ge i; simp [childNodes]; all_goals omega

/-! ### Classifier and analyzer (src/util.ts lines 56-234) -/

mutual
/-- Models `diagnoseJsxElement` (src/util.ts lines 56-143).  For an element:
the `script` exemption (lines 66-69), then — when a `safe` attribute is
present — the empty/single-text warning (lines 75-83) or the asserted-safe
child loop (lines 85-116); without the marker (and for every fragment) the
generic scan over expression-container children (lines 122-141), whose
`isComponent` flag is `ts.isJsxElement(node) && tagName.match(UPPERCASE)`. -/
def diagnoseJsxElement (node : Node) (diagnostics : List Diag) : List Diag :=
  match node with
  | .jsxElement info tagName attrs children =>
    if tagName == "script" then diagnostics
    else
      match getSafeAttribute attrs with
      | some safeAttribute =>
        if children.length == 0 || (children.length == 1 && headIsJsxText children) then
          diagnostics ++ [diagnosticOfAttr safeAttribute .UnusedSafe .Warning]
        else
          safeLoop children safeAttribute info.file diagnostics
      | none => genericScan children diagnostics (containsUppercase tagName)
  | .jsxFragment _ children => genericScan children diagnostics false
  | _ => diagnostics
termination_by sizeOf node * 2
decreasing_by
  all_goals simp
  all_goals omega

/-- The loop of src/util.ts lines 123-140: each expression-container child
with a present inner expression is passed to `diagnoseExpression`. -/
def genericScan (children : List Node) (diagnostics : List Diag) (isComponent : Bool) :
    List Diag :=
  match children with
  | [] => diagnostics
  | exp :: rest =>
    match exp with
    | .jsxExpression _ (some e) =>
        genericScan rest (diagnoseExpression e diagnostics isComponent) isComponent
    | _ => genericScan rest diagnostics isComponent
termination_by sizeOf children * 2
decreasing_by
  all_goals simp
  all_goals omega

/-- Models `diagnoseExpression` (src/util.ts lines 145-234): one level of
parenthesis unwrapping (lines 152-155), then the main body. -/
def diagnoseExpression (node : Node) (diagnostics : List Diag) (isComponent : Bool) :
    List Diag :=
  match node with
  | .paren _ e => diagnoseExprCore e diagnostics isComponent
  | n => diagnoseExprCore n diagnostics isComponent
termination_by sizeOf node * 2 + 1
decreasing_by
  all_goals simp
  all_goals omega

/-- The body of `diagnoseExpression` after the parenthesis unwrap
(src/util.ts lines 157-233): JSX nodes are skipped (line 158); a binary
expression with a boolean-producing operator is skipped, any other binary
expression recurses into the right operand only (lines 163-185); a
conditional recurses into both branches, never the condition (lines
188-193); otherwise the checker type is consulted and safe expressions are
skipped (lines 195-200); a non-identifier whose child nodes contain JSX
dispatches each JSX child to the classifier and returns (lines 203-226);
everything else pushes a `ComponentXss` or `Xss` error at the node. -/
def diagnoseExprCore (node : Node) (diagnostics : List Diag) (isComponent : Bool) :
    List Diag :=
  if isJsxNode node then diagnostics
  else
    match node with
    | .binaryExpr _ _ op right =>
      if isBooleanOp op then diagnostics
      else diagnoseExpression right diagnostics isComponent
    | .conditionalExpr _ _ whenTrue whenFalse =>
      diagnoseExpression whenFalse (diagnoseExpression whenTrue diagnostics isComponent)
        isComponent
    | n =>
      if isSafeAttribute n.nodeTy n then diagnostics
      else if !(isIdentNode n) && (childNodes n).any isJsxNode then
        jsxScan (childNodes n) diagnostics
      else
        diagnostics ++
          [diagnosticOfNode n
            (if isComponent || isFragmentNode n then .ComponentXss else .Xss) .Error]
termination_by sizeOf node * 2
decreasing_by
  all_goals simp
  all_goals first
    | omega
    | (have hlt := childNodes_sizeOf_lt n; omega)

/-- The loop of src/util.ts lines 206-219: every JSX node among the child
nodes is dispatched to the classifier. -/
def jsxScan (cs : List Node) (diagnostics : List Diag) : List Diag :=
  match cs with
  | [] => diagnostics
  | c :: rest =>
      jsxScan rest (if isJsxNode c then diagnoseJsxElement c diagnostics else diagnostics)
termination_by sizeOf cs * 2
decreasing_by
  all_goals simp
  all_goals omega
end

/-! ### Tree walker (src/util.ts lines 21-37) -/

mutual
/-- The callback `loopSourceNodes` of `recursiveDiagnoseJsxElements`: recurse
into all children first, then classify the node itself when it is JSX. -/
def loopSourceNodes (n : Node) (diagnostics : List Diag) : List Diag :=
  let d1 := walkChildren (childNodes n) diagnostics
  if isJsxNode n then diagnoseJsxElement n d1 else d1
termination_by sizeOf n * 2 + 1
decreasing_by
  have hlt := childNodes_sizeOf_lt n; omega

/-- `ts.forEachChild(node, loopSourceNodes)`: the callback applied to each
child in order. -/
def walkChildren (cs : List Node) (diagnostics : List Diag) : List Diag :=
  match cs with
  | [] => diagnostics
  | c :: rest => walkChildren rest (loopSourceNodes c diagnostics)
termination_by sizeOf cs * 2
decreasing_by
  all_goals simp
  all_goals omega
end

/-- Models `recursiveDiagnoseJsxElements(ts, node, checker, original)`
(src/util.ts lines 21-37): the callback is applied to every child of the
root — the root node itself is never passed to the callback. -/
def recursiveDiagnoseJsxElements (root : Node) (diagnostics : List Diag) : List Diag :=
  walkChildren (childNodes root) diagnostics

/-! ### Spec-side traversal description (for the walker claim) -/

mutual
/-- Spec-side definition: the strict-descendants-then-node (postorder) visit
sequence of a subtree. -/
def postorder (n : Node) : List Node :=
  postorderList (childNodes n) ++ [n]
termination_by sizeOf n * 2 + 1
decreasing_by
  have hlt := childNodes_sizeOf_lt n; omega

/-- Spec-side definition: postorder visit sequence of a forest. -/
def postorderList (cs : List Node) : List Node :=
  match cs with
  | [] => []
  | c :: rest => postorder c ++ postorderList rest
termination_by sizeOf cs * 2
decreasing_by
  all_goals simp
  all_goals omega
end

/-- Spec-side definition: what the walker does at one visited node — classify
it iff it is an Element or Fragment. -/
def walkStep (acc : List Diag) (n : Node) : List Diag :=
  if isJsxNode n then diagnoseJsxElement n acc else acc

/-! ### Concrete example data used by witnesses and counterexamples -/

/-- The plain `string` type: flags contain only ts.TypeFlags.String. -/
def tyString : Ty := .mk tfString none none false none none

/-- A string-literal type (for example the type of `"hi"`): flags contain
ts.TypeFlags.StringLiteral and, as in the TypeScript checker, NOT
ts.TypeFlags.String. -/
def tyStrLit : Ty := .mk tfStringLiteral none none false none none

/-- The `number` type. -/
def tyNumber : Ty := .mk tfNumber none none false none none

/-- The `any` type. -/
def tyAny : Ty := .mk tfAny none none false none none

/-- An object-flagged type. -/
def tyObject : Ty := .mk tfObject none none false none none

/-- The union `number | "hi"`, whose members are both safe. -/
def tyUnionSafe : Ty := .mk tfUnion none (some [tyNumber, tyStrLit]) false none none

/-- An identifier of string-literal type whose text matches no safe pattern. -/
def exprUserInput : Node := .ident ⟨"userInput", 0, 5, 9, 4, some tyStrLit⟩

/-- An identifier of plain string type whose text matches no safe pattern. -/
def exprPlainStr : Node := .ident ⟨"userInput", 0, 5, 9, 4, some tyString⟩

/-- An identifier of type `any` whose text starts with `safe`. -/
def exprAnySafe : Node := .ident ⟨"safeValue", 0, 5, 9, 4, some tyAny⟩

/-- An identifier typed with the all-safe union. -/
def exprUnion : Node := .ident ⟨"u", 0, 5, 1, 4, some tyUnionSafe⟩

/-- Observable data for an enclosing binary expression. -/
def infoBinEx : NodeInfo := ⟨"a && b", 0, 9, 6, 8, none⟩

/-- An unsafe string-typed identifier used as a JSX child. -/
def identX : Node := .ident ⟨"x", 0, 9, 1, 9, some tyString⟩

/-- A `safe` attribute preceded by exactly one space: `getStart = pos + 1`. -/
def attrSafeOne : Attr := ⟨"safe", 0, 5, 4, 4⟩

/-- A `safe` attribute preceded by two spaces: `getStart = pos + 2`. -/
def attrSafeTwo : Attr := ⟨"safe", 0, 6, 4, 4⟩

/-- The element `<div safe></div>` — childless, marker present. -/
def safeDivRoot : Node :=
  .jsxElement ⟨"<div safe></div>", 0, 0, 16, 0, none⟩ "div" [attrSafeOne] []

/-- The element `<fooBar>{x}</fooBar>`: the tag name starts lowercase but
contains an uppercase letter. -/
def exFooBar : Node :=
  .jsxElement ⟨"<fooBar>{x}</fooBar>", 0, 0, 20, 0, none⟩ "fooBar" []
    [.jsxExpression ⟨"{x}", 0, 8, 3, 8, none⟩ (some identX)]

/-- An unsafe string-typed identifier used inside a component. -/
def identData : Node := .ident ⟨"data", 0, 11, 4, 11, some tyString⟩

/-- The element `<UserCard>{data}</UserCard>`. -/
def exUserCard : Node :=
  .jsxElement ⟨"<UserCard>{data}</UserCard>", 0, 0, 27, 0, none⟩ "UserCard" []
    [.jsxExpression ⟨"{data}", 0, 10, 6, 10, none⟩ (some identData)]

/-- A number-typed (hence safe) identifier. -/
def identA : Node := .ident ⟨"a", 0, 12, 1, 12, some tyNumber⟩

/-- Another number-typed (hence safe) identifier. -/
def identB : Node := .ident ⟨"b", 0, 15, 1, 15, some tyNumber⟩

/-- The element `<div  safe>{a}{b}</div>` (two spaces before the marker, so
the marker's `getStart` is `pos + 2`), with two provably safe children. -/
def exTwoSpace : Node :=
  .jsxElement ⟨"<div  safe>{a}{b}</div>", 0, 0, 23, 0, none⟩ "div" [attrSafeTwo]
    [.jsxExpression ⟨"{a}", 0, 11, 3, 11, none⟩ (some identA),
     .jsxExpression ⟨"{b}", 0, 14, 3, 14, none⟩ (some identB)]

/-- Observable data of `<div safe>{a}</div>`. -/
def infoDivSafe : NodeInfo := ⟨"<div safe>{a}</div>", 0, 0, 19, 0, none⟩

/-- Observable data of the container `{a}` inside `<div safe>{a}</div>`. -/
def infoContainerA : NodeInfo := ⟨"{a}", 0, 10, 3, 10, none⟩

/-- The call `escapeHtml(x)`, of string type. -/
def escCall : Node := .callExpr ⟨"escapeHtml(x)", 0, 11, 13, 10, some tyString⟩ []

/-- The container `{escapeHtml(x)}`. -/
def escChild : Node := .jsxExpression ⟨"{escapeHtml(x)}", 0, 10, 15, 10, none⟩ (some escCall)

/-- The element `<div safe>{escapeHtml(x)}</div>`. -/
def exSafeEscape : Node :=
  .jsxElement ⟨"<div safe>{escapeHtml(x)}</div>", 0, 0, 31, 0, none⟩ "div" [attrSafeOne]
    [escChild]

/-- The element `<div>hi</div>` embedded in an expression. -/
def innerDiv : Node :=
  .jsxElement ⟨"<div>hi</div>", 0, 21, 13, 21, none⟩ "div" [] [.jsxText ⟨"hi", 0, 26, 2, 26, none⟩]

/-- The array literal `[<div>hi</div>]`, an object-typed non-identifier
expression with an embedded JSX child. -/
def exArrMap : Node := .otherExpr ⟨"[<div>hi</div>]", 0, 20, 15, 20, some tyObject⟩ [innerDiv]

/-- An unsafe string-typed identifier inside the nested div of the script. -/
def identX2 : Node := .ident ⟨"x", 0, 14, 1, 14, some tyString⟩

/-- The element `<div>{x}</div>` nested inside a script element. -/
def exInnerDiv : Node :=
  .jsxElement ⟨"<div>{x}</div>", 0, 8, 14, 8, none⟩ "div" []
    [.jsxExpression ⟨"{x}", 0, 13, 3, 13, none⟩ (some identX2)]

/-- The element `<script><div>{x}</div></script>`. -/
def exScriptEl : Node :=
  .jsxElement ⟨"<script><div>{x}</div></script>", 0, 0, 31, 0, none⟩ "script" [] [exInnerDiv]

/-- A document root whose only child is the script element. -/
def exScriptRoot : Node := .otherExpr ⟨"", 0, 0, 31, 0, none⟩ [exScriptEl]

/-! ### Helper lemmas -/

/-- The union rule's member conjunction is `List.all`. -/
theorem isSafeTyList_eq_all (ms : List Ty) (e : Node) :
    isSafeTyList ms e = ms.all (fun m => isSafeTy m e) := by
  induction ms with
  | nil => simp [isSafeTyList]
  | cons t ts ih => simp [isSafeTyList, ih]

/-- For a union type not caught by the earlier lattice rules, the oracle
answers the conjunction of the members' answers. -/
theorem isSafeTy_union (t : Ty) (ms : List Ty) (e : Node)
    (hunion : t.unionTypes = some ms)
    (hany : t.flags &&& tfAny = 0)
    (halias1 : (isJsxElementAlias t.aliasSymbol && isCallNode e) = false)
    (halias2 : isHtmlChildrenAlias t.aliasSymbol = false) :
    isSafeTy t e = ms.all (fun m => isSafeTy m e) := by
  obtain ⟨f, al, un, arr, sym, args⟩ := t
  simp only [Ty.flags] at hany
  simp only [Ty.aliasSymbol] at halias1 halias2
  simp only [Ty.unionTypes] at hunion
  subst hunion
  simp [isSafeTy, hany, halias1, halias2, isSafeTyList_eq_all]

/-- An expression that reaches the oracle (neither parenthesized, JSX,
binary nor conditional) and is classified safe produces no diagnostic. -/
theorem diagnoseExpression_safe (e : Node) (dgs : List Diag) (isComponent : Bool)
    (hpar : isParenNode e = false) (hjsx : isJsxNode e = false)
    (hbin : isBinaryNode e = false) (hcond : isConditionalNode e = false)
    (hsafe : isSafeAttribute e.nodeTy e = true) :
    diagnoseExpression e dgs isComponent = dgs := by
  cases e <;> simp_all [diagnoseExpression, diagnoseExprCore, isParenNode, isJsxNode,
    isBinaryNode, isConditionalNode]

/-- The JSX-children dispatch loop as a fold of classifier calls. -/
theorem jsxScan_eq_foldl (cs : List Node) (dgs : List Diag) :
    jsxScan cs dgs =
      cs.foldl (fun acc c => if isJsxNode c then diagnoseJsxElement c acc else acc) dgs := by
  induction cs generalizing dgs with
  | nil => simp [jsxScan]
  | cons c rest ih => simp [jsxScan, ih]

/-- One asserted-safe step only appends to the diagnostic list. -/
theorem safeStep_append (a : Attr) (file : Nat) (acc : List Diag) (exp : Node) :
    ∃ t, safeStep a file acc exp = acc ++ t := by
  unfold safeStep
  repeat' split
  all_goals first
    | exact ⟨_, rfl⟩
    | exact ⟨[], by simp⟩

/-- Membership in the accumulator is preserved by one asserted-safe step. -/
theorem mem_safeStep (a : Attr) (file : Nat) (acc : List Diag) (exp : Node) (d : Diag)
    (h : d ∈ acc) : d ∈ safeStep a file acc exp := by
  obtain ⟨t, ht⟩ := safeStep_append a file acc exp
  rw [ht]
  exact List.mem_append_left _ h

/-- An escapeHtml-matching container child makes the step push the
`DoubleEscape` error at the safe attribute. -/
theorem safeStep_escape_mem (a : Attr) (file : Nat) (acc : List Diag) (exp : Node)
    (h : expMatchesEscape exp = true) :
    diagnosticOfAttr a .DoubleEscape .Error ∈ safeStep a file acc exp := by
  simp [safeStep, h]

/-- Membership in the accumulator is preserved by the asserted-safe loop. -/
theorem mem_safeLoop (children : List Node) (a : Attr) (file : Nat) (dgs : List Diag)
    (d : Diag) (h : d ∈ dgs) : d ∈ safeLoop children a file dgs := by
  induction children generalizing dgs with
  | nil => simpa [safeLoop] using h
  | cons c rest ih =>
    simp only [safeLoop, List.foldl_cons] at ih ⊢
    exact ih _ (mem_safeStep _ _ _ _ _ h)

/-- The asserted-safe loop pushes a `DoubleEscape` error for every
escapeHtml-matching container child. -/
theorem mem_safeLoop_escape (children : List Node) (a : Attr) (file : Nat)
    (dgs : List Diag) (c : Node) (hmem : c ∈ children) (hc : expMatchesEscape c = true) :
    diagnosticOfAttr a .DoubleEscape .Error ∈ safeLoop children a file dgs := by
  induction children generalizing dgs with
  | nil => cases hmem
  | cons x rest ih =>
    simp only [safeLoop, List.foldl_cons] at ih ⊢
    rcases List.mem_cons.mp hmem with h | h
    · subst h
      exact mem_safeLoop rest a file _ _ (safeStep_escape_mem a file dgs c hc)
    · exact ih _ h

/-- The walker's child loop equals a postorder fold of the per-node step,
proved by strong induction on the size of the forest. -/
theorem walkChildren_eq_postorder (k : Nat) :
    ∀ cs : List Node, sizeOf cs ≤ k → ∀ dgs : List Diag,
      walkChildren cs dgs = (postorderList cs).foldl walkStep dgs := by
  induction k with
  | zero =>
    intro cs h
    have := list_sizeOf_pos cs
    omega
  | succ k ih =>
    intro cs h dgs
    cases cs with
    | nil => simp [walkChildren, postorderList]
    | cons c rest =>
      have hsz : 1 + sizeOf c + sizeOf rest ≤ k + 1 := by
        have : sizeOf (c :: rest) = 1 + sizeOf c + sizeOf rest := by simp
        omega
      have h1 : sizeOf (childNodes c) ≤ k := by
        have := childNodes_sizeOf_lt c
        have := list_sizeOf_pos rest
        omega
      have h2 : sizeOf rest ≤ k := by omega
      have hloop : loopSourceNodes c dgs = walkStep (walkChildren (childNodes c) dgs) c := by
        simp [loopSourceNodes, walkStep]
      calc walkChildren (c :: rest) dgs
          = walkChildren rest (loopSourceNodes c dgs) := by simp [walkChildren]
        _ = (postorderList rest).foldl walkStep (loopSourceNodes c dgs) :=
            ih rest h2 _
        _ = (postorderList rest).foldl walkStep
              (walkStep ((postorderList (childNodes c)).foldl walkStep dgs) c) := by
            rw [hloop, ih (childNodes c) h1 dgs]
        _ = (postorderList (c :: rest)).foldl walkStep dgs := by
            simp [postorderList, postorder, List.foldl_append, walkStep]

/-! ### Claim theorems -/

/-- C1 (counterexample): the claim says a string-literal-typed expression
whose text matches neither the `safe` prefix nor the escapeHtml pattern is
classified unsafe.  In the code, a string-literal type carries
ts.TypeFlags.StringLiteral but not ts.TypeFlags.String, so it fails the
`type.flags & ts.TypeFlags.String` test (src/util.ts line 295) and is
classified safe WITHOUT any inspection of the expression text — as the
source comment "We allow literal string types here" states. -/
theorem C1_counterexample :
    tyStrLit.flags &&& tfStringLiteral ≠ 0 ∧
    tyStrLit.flags &&& tfString = 0 ∧ tyStrLit.flags &&& tfObject = 0 ∧
    (strStartsWith exprUserInput.getText "safe" ||
      escapeHtmlMatch exprUserInput.getText) = false ∧
    isSafeTy tyStrLit exprUserInput = true :=
  ⟨by decide, by decide, by decide, by decide, by decide⟩

/-- C1 (amended): for a type not matched by an earlier lattice rule (not
any-flagged, not a recognized alias, not a union, not array/Promise-shaped),
the oracle inspects the literal source text exactly when the type carries the
String or Object FLAG; such a type is safe iff the text starts with `safe` or
matches the escapeHtml pattern.  Types carrying neither flag — which
includes string-LITERAL types — are safe unconditionally. -/
theorem C1_amended (t : Ty) (e : Node)
    (hany : t.flags &&& tfAny = 0)
    (halias1 : (isJsxElementAlias t.aliasSymbol && isCallNode e) = false)
    (halias2 : isHtmlChildrenAlias t.aliasSymbol = false)
    (hunion : t.unionTypes = none)
    (harr : t.isArrayType = false)
    (hprom : (t.symbolName == some "Promise") = false) :
    isSafeTy t e =
      if t.flags &&& tfString == 0 && t.flags &&& tfObject == 0 then true
      else strStartsWith e.getText "safe" || escapeHtmlMatch e.getText := by
  obtain ⟨f, al, un, arr, sym, args⟩ := t
  simp only [Ty.flags, Ty.aliasSymbol, Ty.unionTypes, Ty.isArrayType, Ty.symbolName]
    at hany halias1 halias2 hunion harr hprom ⊢
  subst hunion harr
  rw [isSafeTy.eq_def]
  simp [hany, halias1, halias2, hprom]

/-- Witness for C1: string-flagged and object-flagged types with
pattern-free literal text are classified unsafe. -/
theorem C1_witness :
    isSafeTy tyString exprPlainStr = false ∧ isSafeTy tyObject exprPlainStr = false := by
  constructor
  · have h := C1_amended tyString exprPlainStr (by decide) (by decide) (by decide)
      rfl rfl (by decide)
    rw [h]; decide
  · have h := C1_amended tyObject exprPlainStr (by decide) (by decide) (by decide)
      rfl rfl (by decide)
    rw [h]; decide

/-- C2: for a union type (not matched by an earlier lattice rule) the oracle
answers true iff every member independently satisfies the lattice, and an
expression whose resolved type is such a union with all members safe
produces no diagnostic when analyzed. -/
theorem C2 :
    (∀ (t : Ty) (ms : List Ty) (e : Node),
        t.unionTypes = some ms →
        t.flags &&& tfAny = 0 →
        (isJsxElementAlias t.aliasSymbol && isCallNode e) = false →
        isHtmlChildrenAlias t.aliasSymbol = false →
        isSafeTy t e = ms.all (fun m => isSafeTy m e)) ∧
    (∀ (e : Node) (t : Ty) (ms : List Ty) (dgs : List Diag) (isComponent : Bool),
        e.nodeTy = some t →
        t.unionTypes = some ms →
        t.flags &&& tfAny = 0 →
        (isJsxElementAlias t.aliasSymbol && isCallNode e) = false →
        isHtmlChildrenAlias t.aliasSymbol = false →
        ms.all (fun m => isSafeTy m e) = true →
        isParenNode e = false → isJsxNode e = false →
        isBinaryNode e = false → isConditionalNode e = false →
        diagnoseExpression e dgs isComponent = dgs) := by
  constructor
  · intro t ms e hunion hany halias1 halias2
    exact isSafeTy_union t ms e hunion hany halias1 halias2
  · intro e t ms dgs isComponent hty hunion hany halias1 halias2 hall hpar hjsx hbin hcond
    have hsafe : isSafeAttribute e.nodeTy e = true := by
      rw [hty]
      show isSafeTy t e = true
      rw [isSafeTy_union t ms e hunion hany halias1 halias2]
      exact hall
    exact diagnoseExpression_safe e dgs isComponent hpar hjsx hbin hcond hsafe

/-- Witness for C2 at a concrete all-safe union. -/
theorem C2_witness :
    tyUnionSafe.unionTypes = some [tyNumber, tyStrLit] ∧
    isSafeTy tyUnionSafe exprUnion = [tyNumber, tyStrLit].all (fun m => isSafeTy m exprUnion) ∧
    diagnoseExpression exprUnion [] false = [] := by
  refine ⟨rfl, ?_, ?_⟩
  · exact C2.1 tyUnionSafe [tyNumber, tyStrLit] exprUnion rfl (by decide) (by decide)
      (by decide)
  · exact C2.2 exprUnion tyUnionSafe [tyNumber, tyStrLit] [] false rfl rfl (by decide)
      (by decide) (by decide) (by decide) rfl rfl rfl rfl

/-- C3: the lattice is ordered with the first match deciding — an unresolved
type is always safe, and an any-flagged type is always unsafe, regardless of
the expression's literal text (rule 2 precedes rule 8). -/
theorem C3 :
    (∀ e : Node, isSafeAttribute none e = true) ∧
    (∀ (t : Ty) (e : Node), t.flags &&& tfAny ≠ 0 → isSafeTy t e = false) := by
  constructor
  · intro e; rfl
  · intro t e h
    obtain ⟨f, al, un, arr, sym, args⟩ := t
    simp only [Ty.flags] at h
    rw [isSafeTy.eq_def]
    simp [h]

/-- Witness for C3: the any-typed expression is unsafe even though its text
starts with the `safe` prefix. -/
theorem C3_witness :
    isSafeTy tyAny exprAnySafe = false ∧ strStartsWith exprAnySafe.getText "safe" = true :=
  ⟨C3.2 tyAny exprAnySafe (by decide), by decide⟩

/-- C4: the analyzer on a binary expression returns unchanged for every
boolean-producing operator, and for any other operator recurses into the
right operand only — the result never depends on the left operand. -/
theorem C4 :
    (∀ (i : NodeInfo) (l : Node) (op : BinOp) (r : Node) (dgs : List Diag) (c : Bool),
        isBooleanOp op = true →
        diagnoseExpression (.binaryExpr i l op r) dgs c = dgs) ∧
    (∀ (i : NodeInfo) (l : Node) (op : BinOp) (r : Node) (dgs : List Diag) (c : Bool),
        isBooleanOp op = false →
        diagnoseExpression (.binaryExpr i l op r) dgs c = diagnoseExpression r dgs c) := by
  constructor <;> intro i l op r dgs c h <;>
    simp [diagnoseExpression, diagnoseExprCore, isJsxNode, h]

/-- Witness for C4: a strict equality over unsafe operands yields nothing;
a logical-and reduces exactly to the analysis of its right operand. -/
theorem C4_witness :
    diagnoseExpression (.binaryExpr infoBinEx exprPlainStr .eqEqEq exprPlainStr) [] false
      = [] ∧
    diagnoseExpression (.binaryExpr infoBinEx exprPlainStr .andAnd exprPlainStr) [] false
      = diagnoseExpression exprPlainStr [] false :=
  ⟨C4.1 infoBinEx exprPlainStr .eqEqEq exprPlainStr [] false rfl,
   C4.2 infoBinEx exprPlainStr .andAnd exprPlainStr [] false rfl⟩

/-- C5 (counterexample): the claim says the walker invokes the classifier on
every visited Element/Fragment INCLUDING the root itself.  In the code,
`recursiveDiagnoseJsxElements` hands only the root's children to the
callback (`ts.forEachChild(node, loopSourceNodes)`), so a root that is
itself a JSX element is never classified: on the root `<div safe></div>`
the walker emits nothing although classifying that element emits an
`UnusedSafe` warning. -/
theorem C5_counterexample :
    isJsxNode safeDivRoot = true ∧
    recursiveDiagnoseJsxElements safeDivRoot [] = [] ∧
    diagnoseJsxElement safeDivRoot [] = [⟨.Warning, .UnusedSafe, 0, 4, 5⟩] := by
  refine ⟨rfl, ?_, ?_⟩
  · simp [recursiveDiagnoseJsxElements, walkChildren, childNodes, safeDivRoot]
  · simp +decide [diagnoseJsxElement, getSafeAttribute, safeDivRoot, attrSafeOne,
      diagnosticOfAttr]

/-- C5 (amended): the walker visits every STRICT descendant of the root
exactly once, in a postorder where all descendants of a node are visited
before the node itself is tested, and classifies exactly the Element and
Fragment nodes among them in that order; the root node itself is never
tested.  Formally, the walk equals the fold of the per-node classify step
over the postorder sequence of the root's strict descendants. -/
theorem C5_amended (root : Node) (dgs : List Diag) :
    recursiveDiagnoseJsxElements root dgs
      = (postorderList (childNodes root)).foldl walkStep dgs := by
  have h := walkChildren_eq_postorder (sizeOf (childNodes root)) (childNodes root)
    le_rfl dgs
  simpa [recursiveDiagnoseJsxElements] using h

/-- C6 (counterexample): the claim says `isComponent` is true iff the tag
name STARTS with an uppercase letter, and false e.g. for tag names whose
first letter is lowercase.  The code tests `tagName.match(/[A-Z]/)`, which
matches an uppercase letter ANYWHERE: for `<fooBar>{x}</fooBar>` (first
letter lowercase) the unsafe child is reported as `ComponentXss` — the
diagnostic kind reserved for components — not as `Xss` as the claim
requires. -/
theorem C6_counterexample :
    startsWithUpper "fooBar" = false ∧
    containsUppercase "fooBar" = true ∧
    diagnoseJsxElement exFooBar [] = [⟨.Error, .ComponentXss, 0, 1, 9⟩] := by
  refine ⟨by decide, by decide, ?_⟩
  simp +decide [diagnoseJsxElement, genericScan, diagnoseExpression, diagnoseExprCore,
    jsxScan, childNodes, getSafeAttribute, exFooBar, identX, diagnosticOfNode,
    Node.nodeTy, Node.info, Node.getText, Node.getSourceFile, Node.getStart, Node.getWidth,
    isJsxNode, isIdentNode, isFragmentNode, containsUppercase]

/-- C6 (amended): in the generic scan of a marker-free element, each
expression-container child with a present inner expression is passed to the
analyzer with `isComponent` true iff the element's tag name CONTAINS an
uppercase letter anywhere (the unanchored regex `[A-Z]`), not merely when
it starts with one. -/
theorem C6_amended (info ci : NodeInfo) (tagName : String) (attrs : List Attr)
    (e : Node) (dgs : List Diag)
    (hscript : (tagName == "script") = false)
    (hsafe : getSafeAttribute attrs = none) :
    diagnoseJsxElement (.jsxElement info tagName attrs [.jsxExpression ci (some e)]) dgs
      = diagnoseExpression e dgs (containsUppercase tagName) := by
  simp [diagnoseJsxElement, hscript, hsafe, genericScan]

/-- Witness for C6 at the component element `<UserCard>{data}</UserCard>`. -/
theorem C6_witness :
    diagnoseJsxElement exUserCard [] = diagnoseExpression identData [] true := by
  have h := C6_amended ⟨"<UserCard>{data}</UserCard>", 0, 0, 27, 0, none⟩
    ⟨"{data}", 0, 10, 6, 10, none⟩ "UserCard" [] identData [] (by decide) rfl
  have hu : containsUppercase "UserCard" = true := by decide
  rw [hu] at h
  exact h

/-- C7 (counterexample): the claim says an `UnusedSafe` warning is emitted
iff no previously emitted diagnostic is anchored at this exact marker
position, so at most one `UnusedSafe` is added per marker.  The code
suppresses against `safeAttribute.pos + 1` (src/util.ts line 111) while all
marker diagnostics are anchored at `safeAttribute.getStart()`; the two
coincide only when exactly one character of trivia precedes the marker.  On
`<div  safe>{a}{b}</div>` (two spaces, so `getStart = pos + 2`) both safe
children emit: two `UnusedSafe` warnings anchored at the same marker. -/
theorem C7_counterexample :
    attrSafeTwo.pos + 1 ≠ attrSafeTwo.start ∧
    diagnoseJsxElement exTwoSpace [] =
      [⟨.Warning, .UnusedSafe, 0, 4, 6⟩, ⟨.Warning, .UnusedSafe, 0, 4, 6⟩] := by
  refine ⟨by decide, ?_⟩
  simp +decide [diagnoseJsxElement, getSafeAttribute, exTwoSpace, attrSafeTwo, safeLoop,
    safeStep, identA, identB, headIsJsxText, diagnosticOfAttr]

/-- C7 (amended): in asserted-safe mode, the `UnusedSafe` warning for a
safe-and-not-unsafe-prefixed container child is emitted iff no diagnostic in
the accumulated list has `start = safeAttribute.pos + 1` in the element's
file; the emitted warning itself is anchored at the marker's `getStart`.
Only when exactly one trivia character precedes the marker (so
`getStart = pos + 1`) does this suppression match the warnings' own anchor
and bound them to one per marker. -/
theorem C7_amended (info ci : NodeInfo) (tagName : String) (attrs : List Attr)
    (a : Attr) (e : Node) (dgs : List Diag)
    (hscript : (tagName == "script") = false)
    (hsafe : getSafeAttribute attrs = some a)
    (hesc : escapeHtmlMatch e.getText = false)
    (hsafety : isSafeAttribute e.nodeTy e = true)
    (hnotun : strStartsWith e.getText "unsafe" = false) :
    diagnoseJsxElement (.jsxElement info tagName attrs [.jsxExpression ci (some e)]) dgs =
      if dgs.any (fun d => d.start == a.pos + 1 && d.file == info.file) then dgs
      else dgs ++ [diagnosticOfAttr a .UnusedSafe .Warning] := by
  simp [diagnoseJsxElement, hscript, hsafe, headIsJsxText, isJsxTextNode, safeLoop,
    safeStep, expMatchesEscape, hesc, hsafety, hnotun, isJsxElementNode]
  by_cases hc : ∃ x ∈ dgs, x.start = a.pos + 1 ∧ x.file = info.file
  · have hall : ¬ (∀ x ∈ dgs, x.start = a.pos + 1 → ¬x.file = info.file) := by
      obtain ⟨x, hxmem, hx1, hx2⟩ := hc
      intro hall
      exact hall x hxmem hx1 hx2
    rw [if_pos hc, if_neg hall]
  · have hall : ∀ x ∈ dgs, x.start = a.pos + 1 → ¬x.file = info.file := by
      intro x hxmem hx1 hx2
      exact hc ⟨x, hxmem, hx1, hx2⟩
    rw [if_neg hc, if_pos hall]

/-- Witness for C7: with an empty prior list the warning is emitted at the
marker; with a prior diagnostic at `pos + 1` in the same file it is
suppressed. -/
theorem C7_witness :
    diagnoseJsxElement (.jsxElement infoDivSafe "div" [attrSafeOne]
        [.jsxExpression infoContainerA (some identA)]) []
      = [diagnosticOfAttr attrSafeOne .UnusedSafe .Warning] ∧
    diagnoseJsxElement (.jsxElement infoDivSafe "div" [attrSafeOne]
        [.jsxExpression infoContainerA (some identA)]) [⟨.Warning, .UnusedSafe, 0, 4, 5⟩]
      = [⟨.Warning, .UnusedSafe, 0, 4, 5⟩] := by
  constructor
  · have h := C7_amended infoDivSafe infoContainerA "div" [attrSafeOne] attrSafeOne
      identA [] (by decide) (by decide) (by decide) (by decide) (by decide)
    simpa using h
  · have h := C7_amended infoDivSafe infoContainerA "div" [attrSafeOne] attrSafeOne
      identA [⟨.Warning, .UnusedSafe, 0, 4, 5⟩] (by decide) (by decide) (by decide)
      (by decide) (by decide)
    simpa [infoDivSafe, attrSafeOne] using h

/-- C8: in asserted-safe mode, every container child whose inner text
matches the escapeHtml pattern of `ESCAPE_HTML_REGEX` (case-insensitive,
optionally dotted-qualified) contributes a `DoubleEscape` error anchored at
the marker attribute. -/
theorem C8 (info ci : NodeInfo) (tagName : String) (attrs : List Attr) (a : Attr)
    (children : List Node) (e : Node) (dgs : List Diag)
    (hscript : (tagName == "script") = false)
    (hsafe : getSafeAttribute attrs = some a)
    (hguard : (children.length == 0 ||
        (children.length == 1 && headIsJsxText children)) = false)
    (hmem : Node.jsxExpression ci (some e) ∈ children)
    (hmatch : escapeHtmlMatch e.getText = true) :
    diagnosticOfAttr a .DoubleEscape .Error
      ∈ diagnoseJsxElement (.jsxElement info tagName attrs children) dgs := by
  have hstep : diagnoseJsxElement (.jsxElement info tagName attrs children) dgs
      = safeLoop children a info.file dgs := by
    simp [diagnoseJsxElement, hscript, hsafe, hguard]
  rw [hstep]
  exact mem_safeLoop_escape children a info.file dgs _ hmem
    (by simp [expMatchesEscape, hmatch])

/-- Witness for C8: the scenario `<div safe>{escapeHtml(x)}</div>` yields
exactly one `DoubleEscape` error anchored at the safe attribute and no
`Xss`. -/
theorem C8_witness :
    diagnosticOfAttr attrSafeOne .DoubleEscape .Error ∈ diagnoseJsxElement exSafeEscape [] ∧
    diagnoseJsxElement exSafeEscape [] = [⟨.Error, .DoubleEscape, 0, 4, 5⟩] := by
  constructor
  · exact C8 ⟨"<div safe>{escapeHtml(x)}</div>", 0, 0, 31, 0, none⟩
      ⟨"{escapeHtml(x)}", 0, 10, 15, 10, none⟩ "div" [attrSafeOne] attrSafeOne
      [escChild] escCall [] (by decide) (by decide) (by decide)
      (by simp [escChild]) (by decide)
  · simp +decide [diagnoseJsxElement, getSafeAttribute, exSafeEscape, attrSafeOne,
      safeLoop, safeStep, escChild, escCall, headIsJsxText, diagnosticOfAttr]

/-- C9: when the analyzer reaches a reduced expression that is not a bare
identifier, is not classified safe, and whose immediate child nodes contain
at least one embedded Element/Fragment, the result is exactly the fold of
classifier calls over those embedded JSX children — no `Xss`/`ComponentXss`
diagnostic is appended at the expression's own span. -/
theorem C9 (e : Node) (dgs : List Diag) (isComponent : Bool)
    (hpar : isParenNode e = false) (hjsx : isJsxNode e = false)
    (hbin : isBinaryNode e = false) (hcond : isConditionalNode e = false)
    (hid : isIdentNode e = false)
    (hnotsafe : isSafeAttribute e.nodeTy e = false)
    (hkids : (childNodes e).any isJsxNode = true) :
    diagnoseExpression e dgs isComponent =
      (childNodes e).foldl
        (fun acc c => if isJsxNode c then diagnoseJsxElement c acc else acc) dgs := by
  rw [← jsxScan_eq_foldl]
  cases e <;> simp_all [diagnoseExpression, diagnoseExprCore, isParenNode, isJsxNode,
    isBinaryNode, isConditionalNode, isIdentNode]

/-- Witness for C9 at the array literal `[<div>hi</div>]` of object type. -/
theorem C9_witness :
    diagnoseExpression exArrMap [] false =
      (childNodes exArrMap).foldl
        (fun acc c => if isJsxNode c then diagnoseJsxElement c acc else acc) [] :=
  C9 exArrMap [] false rfl rfl rfl rfl rfl (by decide) (by decide)

/-- C10 (counterexample): the claim adds that no diagnostic is EVER produced
regardless of a script element's content.  The classifier is indeed silent
on the script element itself, but the tree walker classifies every
descendant independently: a `<div>{x}</div>` nested inside
`<script>...</script>` is reached bottom-up and its unsafe child still
yields an `Xss` diagnostic. -/
theorem C10_counterexample :
    diagnoseJsxElement exScriptEl [] = [] ∧
    recursiveDiagnoseJsxElements exScriptRoot [] = [⟨.Error, .Xss, 0, 1, 14⟩] := by
  constructor
  · simp +decide [diagnoseJsxElement, exScriptEl]
  · simp +decide [recursiveDiagnoseJsxElements, walkChildren, loopSourceNodes, childNodes,
      exScriptRoot, exScriptEl, exInnerDiv, identX2, isJsxNode,
      diagnoseJsxElement, genericScan, diagnoseExpression, diagnoseExprCore, jsxScan,
      getSafeAttribute, diagnosticOfNode, Node.nodeTy, Node.info, Node.getText,
      Node.getSourceFile, Node.getStart, Node.getWidth, isIdentNode, isFragmentNode,
      containsUppercase]

/-- C10 (amended): the classifier invoked on an element whose tag name is
exactly `script` stops without producing any diagnostic for that node,
whatever its attributes and children; JSX elements nested inside the
script's content are still classified independently by the tree walker and
may produce their own diagnostics. -/
theorem C10_amended (info : NodeInfo) (attrs : List Attr) (children : List Node)
    (dgs : List Diag) :
    diagnoseJsxElement (.jsxElement info "script" attrs children) dgs = dgs := by
  simp [diagnoseJsxElement]
